import Mathlib

/-!
Verification of the optimization core of `optimal_balancer` (src/main.rs).

The program reads a portfolio configuration (funds with existing shares, a
price, a symbol and a target proportion, plus a spending budget), validates
it, builds a mixed-integer optimization model over exact rationals (via z3),
solves it, and extracts an integer purchase plan.

Shallow embedding conventions:
* `f64` inputs are modelled as the exact rational numbers they denote.  Every
  concrete input considered below is either exactly representable in binary
  floating point or far enough from a rounding boundary that the quantization
  step produces the same result on the nearest `f64`.
* The z3 `Real`/`Int` terms built by `construct_model` are modelled by rational
  valued functions of an assignment `σ : String → ℤ` giving the value of the
  integer constant named by each fund symbol (z3 constants are identified by
  name, so two funds with the same symbol share one variable).
* The solver (an external collaborator in the spec) is modelled relationally:
  a Solved Model is an assignment satisfying every asserted constraint.
-/

/-- A fund, from `struct Fund` (src/main.rs lines 24-31): existing `shares`,
`price`, `symbol` and `target_proportion`. -/
structure Fund where
  shares : ℚ
  price : ℚ
  symbol : String
  target_proportion : ℚ
deriving DecidableEq

/-- The portfolio configuration, from `struct Config` (src/main.rs lines
33-37): a `target_buy` budget and the fund list. -/
structure Config where
  target_buy : ℚ
  funds : List Fund
deriving DecidableEq

/-- Round a rational to the nearest integer, ties going to the even integer.
This is the rounding performed by Rust's `format!` with a fixed precision,
which `f64_to_real` (src/main.rs lines 57-60) applies via `{:.3}`. -/
def roundHalfEven (x : ℚ) : ℤ :=
  if x - ⌊x⌋ < 1/2 then ⌊x⌋
  else if 1/2 < x - ⌊x⌋ then ⌊x⌋ + 1
  else if ⌊x⌋ % 2 = 0 then ⌊x⌋ else ⌊x⌋ + 1

/-- Quantization of an input value, from `f64_to_real` (src/main.rs lines
57-60): the value is formatted with `format!` to exactly 3 decimal
digits — which rounds to the nearest thousandth — and the resulting decimal
string is parsed as an exact rational. -/
def f64_to_real (x : ℚ) : ℚ := (roundHalfEven (x * 1000) : ℚ) / 1000

/-- Modelled from the spec: quantization by truncation (toward zero) to 3
decimal digits, following the spec's words "truncated, not rounded, to 3
decimals".  Used only to compare the spec's description of the quantization
policy against `f64_to_real` as implemented. -/
def truncate3 (x : ℚ) : ℚ :=
  if 0 ≤ x then (⌊x * 1000⌋ : ℚ) / 1000 else -((⌊-x * 1000⌋ : ℚ) / 1000)

/-- The two validation failures of `Config::validate` (src/main.rs lines
40-54), each carrying the data interpolated into its `bail!` message: the
actual proportion sum, or the symbol of the fund with a non-positive price. -/
inductive ValidationError where
  | proportionSum (sum : ℚ)
  | nonPositivePrice (symbol : String)
deriving DecidableEq

/-- The proportion sum computed by `Config::validate` (src/main.rs line 41). -/
def fund_proportion_sum (c : Config) : ℚ :=
  (c.funds.map (fun f => f.target_proportion)).sum

/-- The first fund with a non-positive price, if any: the fund whose symbol
the loop of `Config::validate` (src/main.rs lines 48-52) reports.  The Rust
test `f.price.is_sign_negative() || f.price == 0f64` is `price ≤ 0` on the
rational value (a negative zero is equal to `0`). -/
def findNonPositivePrice : List Fund → Option Fund
  | [] => none
  | f :: fs => if f.price ≤ 0 then some f else findNonPositivePrice fs

/-- `Config::validate` (src/main.rs lines 40-54): fail with the actual sum if
the target proportions do not sum to 1 within 0.01, then fail with the symbol
of the first non-positively priced fund, else succeed. -/
def Config.validate (c : Config) : Except ValidationError Unit :=
  if 1/100 < |fund_proportion_sum c - 1| then
    .error (.proportionSum (fund_proportion_sum c))
  else
    match findNonPositivePrice c.funds with
    | some f => .error (.nonPositivePrice f.symbol)
    | none => .ok ()

/-- The `total_bought` term of `construct_model` (src/main.rs lines 66-75):
Σ shares_to_buy[f] × quantized price[f], under assignment `σ`. -/
def total_bought (funds : List Fund) (σ : String → ℤ) : ℚ :=
  (funds.map (fun f => (σ f.symbol : ℚ) * f64_to_real f.price)).sum

/-- The `total_existing` term of `construct_model` (src/main.rs line 73):
Σ quantized shares[f] × quantized price[f]. -/
def total_existing (funds : List Fund) : ℚ :=
  (funds.map (fun f => f64_to_real f.shares * f64_to_real f.price)).sum

/-- `new_total` (src/main.rs line 76): total bought plus total existing. -/
def new_total (funds : List Fund) (σ : String → ℤ) : ℚ :=
  total_bought funds σ + total_existing funds

/-- The raw difference `delta_from_ideal` (src/main.rs lines 82-83):
price[f]×(shares_to_buy[f] + existing_shares[f]) − new_total ×
target_proportion[f], all coefficients quantized. -/
def delta_from_ideal (funds : List Fund) (σ : String → ℤ) (f : Fund) : ℚ :=
  f64_to_real f.price * ((σ f.symbol : ℚ) + f64_to_real f.shares)
    - new_total funds σ * f64_to_real f.target_proportion

/-- One fund's objective contribution (src/main.rs lines 84-87): the ternary
conditional `(delta < 0).ite(-delta, delta)` — an if/then/else encoding of the
absolute value, not a native absolute-value primitive. -/
def deviation (funds : List Fund) (σ : String → ℤ) (f : Fund) : ℚ :=
  if delta_from_ideal funds σ f < 0 then -delta_from_ideal funds σ f
  else delta_from_ideal funds σ f

/-- The objective of `construct_model` (src/main.rs lines 78-95): the sum of
the per-fund conditional deviations plus the underspend penalty
`(target_buy − total_bought) × f64_to_real(1.0)`. -/
def objective (funds : List Fund) (target_buy : ℚ) (σ : String → ℤ) : ℚ :=
  (funds.map (fun f => deviation funds σ f)).sum
    + (f64_to_real target_buy - total_bought funds σ) * f64_to_real 1

/-- The constraints asserted by `construct_model` (src/main.rs lines 70 and
91): every decision variable is ≥ 0, and `total_bought < target_buy` strictly,
with the quantized budget.  A Solved Model is exactly an assignment satisfying
these. -/
def satisfies (funds : List Fund) (target_buy : ℚ) (σ : String → ℤ) : Prop :=
  (∀ f ∈ funds, 0 ≤ σ f.symbol) ∧ total_bought funds σ < f64_to_real target_buy

/-- Modelled from the spec: the objective as the spec states it — the sum over
funds of the mathematical absolute deviation plus the underspend penalty
weighted 1.0.  To be compared with `objective`, which is read off the code. -/
def objectiveSpec (funds : List Fund) (target_buy : ℚ) (σ : String → ℤ) : ℚ :=
  (funds.map (fun f =>
      |f64_to_real f.price * ((σ f.symbol : ℚ) + f64_to_real f.shares)
        - new_total funds σ * f64_to_real f.target_proportion|)).sum
    + (f64_to_real target_buy - total_bought funds σ) * 1

/-- `Model::optimal_shares` (src/main.rs lines 112-116): evaluate the integer
constant named by the fund's symbol in the solved model. -/
def optimal_shares (σ : String → ℤ) (f : Fund) : ℤ := σ f.symbol

/-- The per-fund purchase amount computed in `main` (src/main.rs line 179):
the unquantized price times the extracted share count. -/
def purchase_amount (f : Fund) (shares : ℤ) : ℚ := f.price * shares

/-- `Model::new_portfolio_total` (src/main.rs lines 127-132): the value of the
`new_total` term in the solved model (the Rust code converts the exact
rational to floating point via numerator ÷ denominator; we keep it exact). -/
def new_portfolio_total (funds : List Fund) (σ : String → ℤ) : ℚ :=
  new_total funds σ

/-- The failures `main` (src/main.rs lines 159-183) can surface from the
modeled pipeline: a validation error, or `construct_model` returning `None`
(surfaced as the anyhow error at line 169). -/
inductive PipelineError where
  | invalidConfig (e : ValidationError)
  | noSolution
deriving DecidableEq

/-- One row of the report printed by `main` (src/main.rs lines 175-190). -/
structure ReportRow where
  symbol : String
  shares : ℤ
  buyAmt : ℚ
deriving DecidableEq

/-- The pipeline of `main` (src/main.rs lines 159-196), abstracted over the
solver: validate, solve, then extract a report row per fund and the new
portfolio total.  The solver argument stands for the Optimization Backend;
`none` is its explicit no-solution signal. -/
def runPipeline (solve : List Fund → ℚ → Option (String → ℤ)) (c : Config)
    (tb : ℚ) : Except PipelineError (List ReportRow × ℚ) :=
  match c.validate with
  | .error e => .error (.invalidConfig e)
  | .ok _ =>
    match solve c.funds tb with
    | none => .error .noSolution
    | some σ =>
      .ok (c.funds.map (fun f =>
            ⟨f.symbol, optimal_shares σ f, purchase_amount f (optimal_shares σ f)⟩),
          new_portfolio_total c.funds σ)

/- Concrete instances used by the individual claims. -/

/-- Symbol of the single fund in the degenerate scenario. -/
def vtsax : String := "VTSAX"

/-- First generic fund symbol. -/
def aaa : String := "AAA"

/-- Second generic fund symbol. -/
def bbb : String := "BBB"

/-- The single fund of the degenerate scenario: no existing shares, price 10,
target proportion 1. -/
def c4fund : Fund := ⟨0, 10, vtsax, 1⟩

/-- The fund list of the degenerate scenario. -/
def c4funds : List Fund := [c4fund]

/-- The assignment buying 9 shares of every symbol. -/
def nineShares : String → ℤ := fun _ => 9

/-- Two funds with proportions 0.5 and 0.505: sum 1.005, within tolerance. -/
def cfg1005 : Config := ⟨100, [⟨0, 1, aaa, 1/2⟩, ⟨0, 1, bbb, 101/200⟩]⟩

/-- Two funds with proportions 0.5 and 0.52: sum 1.02, outside tolerance. -/
def cfg102 : Config := ⟨100, [⟨0, 1, aaa, 1/2⟩, ⟨0, 1, bbb, 13/25⟩]⟩

/-- Two funds with proportions 0.5 and 0.4: sum 0.90, outside tolerance. -/
def cfg5040 : Config := ⟨100, [⟨0, 1, aaa, 1/2⟩, ⟨0, 1, bbb, 2/5⟩]⟩

/-- A fund with price 0 (and valid proportion 1). -/
def fundZero : Fund := ⟨0, 0, aaa, 1⟩

/-- A configuration whose only fund has price 0. -/
def cfgZeroPrice : Config := ⟨100, [fundZero]⟩

/-- Two distinct funds sharing the symbol `AAA`. -/
def dupFund1 : Fund := ⟨0, 1, aaa, 1/2⟩

/-- Second fund with the duplicated symbol (different share count). -/
def dupFund2 : Fund := ⟨5, 1, aaa, 1/2⟩

/-- A configuration containing two funds with the same symbol. -/
def cfgDup : Config := ⟨100, [dupFund1, dupFund2]⟩

/-- A configuration with a positive-priced fund and negative budget −5. -/
def c7cfg : Config := ⟨-5, [⟨0, 10, aaa, 1⟩]⟩

/-- The configuration with no funds at all. -/
def cfgEmpty : Config := ⟨100, []⟩

/-- A backend that always reports no solution (trivially sound). -/
def solveNone : List Fund → ℚ → Option (String → ℤ) := fun _ _ => none

/- Helper lemmas for evaluating the quantization on concrete inputs. -/

lemma roundHalfEven_eq_of_lt_half (x : ℚ) (n : ℤ) (h1 : (n : ℚ) ≤ x)
    (h2 : x - n < 1/2) : roundHalfEven x = n := by
  have hf : ⌊x⌋ = n := by
    refine Int.floor_eq_iff.mpr ⟨h1, ?_⟩
    linarith
  rw [roundHalfEven, hf]
  rw [if_pos (by linarith)]

lemma roundHalfEven_eq_of_half_lt (x : ℚ) (n : ℤ) (h1 : 1/2 < x - n)
    (h2 : x < n + 1) : roundHalfEven x = n + 1 := by
  have hf : ⌊x⌋ = n := by
    refine Int.floor_eq_iff.mpr ⟨by linarith, by linarith⟩
  rw [roundHalfEven, hf]
  rw [if_neg (by linarith), if_pos (by linarith)]

/-- Quantization fixes every multiple of 1/1000. -/
lemma f64_to_real_thousandth (n : ℤ) : f64_to_real ((n : ℚ) / 1000) = (n : ℚ) / 1000 := by
  have h : ((n : ℚ) / 1000) * 1000 = (n : ℚ) := by ring
  rw [f64_to_real, h, roundHalfEven_eq_of_lt_half _ n (by norm_num) (by norm_num)]

lemma f64_zero : f64_to_real 0 = 0 := by
  have := f64_to_real_thousandth 0
  norm_num at this
  exact this

lemma f64_one : f64_to_real 1 = 1 := by
  have := f64_to_real_thousandth 1000
  norm_num at this
  exact this

lemma f64_ten : f64_to_real 10 = 10 := by
  have := f64_to_real_thousandth 10000
  norm_num at this
  exact this

lemma f64_hundred : f64_to_real 100 = 100 := by
  have := f64_to_real_thousandth 100000
  norm_num at this
  exact this

lemma f64_half : f64_to_real (1/2) = 1/2 := by
  have := f64_to_real_thousandth 500
  norm_num at this
  exact this

lemma f64_neg_five : f64_to_real (-5) = -5 := by
  have := f64_to_real_thousandth (-5000)
  norm_num at this
  exact this

/-- Rounding half to even always lands within 1/2 of the input. -/
lemma abs_sub_roundHalfEven_le (y : ℚ) : |y - (roundHalfEven y : ℚ)| ≤ 1/2 := by
  have h1 : (⌊y⌋ : ℚ) ≤ y := Int.floor_le y
  have h2 : y < ⌊y⌋ + 1 := Int.lt_floor_add_one y
  rw [roundHalfEven]
  split
  · next h =>
    rw [abs_le]
    exact ⟨by linarith, by linarith⟩
  · next h =>
    split
    · next h2' =>
      push_cast
      rw [abs_le]
      exact ⟨by linarith, by linarith⟩
    · next h2' =>
      have he : y - ⌊y⌋ = 1/2 := le_antisymm (by linarith) (by linarith)
      split
      · next =>
        rw [abs_le]
        exact ⟨by linarith, by linarith⟩
      · next =>
        push_cast
        rw [abs_le]
        exact ⟨by linarith, by linarith⟩

/-- The quantized value is within half a thousandth of the input: `f64_to_real`
rounds to the nearest multiple of 1/1000. -/
lemma abs_sub_f64_to_real_le (x : ℚ) : |x - f64_to_real x| ≤ 1/2000 := by
  have h := abs_sub_roundHalfEven_le (x * 1000)
  rw [f64_to_real]
  have hx : x - (roundHalfEven (x * 1000) : ℚ) / 1000
      = (x * 1000 - (roundHalfEven (x * 1000) : ℚ)) / 1000 := by ring
  rw [hx, abs_div]
  rw [show |(1000 : ℚ)| = 1000 by norm_num]
  linarith [h]

/-- Evaluation of the quantization at the spec's example price 19.4567: the
fractional part 0.7 of 19456.7 rounds up, giving 19.457. -/
lemma f64_194567 : f64_to_real (194567/10000) = 19457/1000 := by
  rw [f64_to_real]
  rw [show (194567 : ℚ)/10000 * 1000 = 194567/10 by norm_num]
  rw [roundHalfEven_eq_of_half_lt _ 19456 (by norm_num) (by norm_num)]
  norm_num

/-- Truncation of 19.4567 to three decimals gives 19.456 instead. -/
lemma truncate3_194567 : truncate3 (194567/10000) = 19456/1000 := by
  rw [truncate3, if_pos (by norm_num)]
  rw [show (194567 : ℚ)/10000 * 1000 = 194567/10 by norm_num]
  rw [show ⌊(194567 : ℚ)/10⌋ = 19456 from Int.floor_eq_iff.mpr ⟨by norm_num, by norm_num⟩]
  norm_num

/- Characterization of the validator. -/

/-- The price loop finds nothing exactly when every price is positive. -/
lemma findNonPositivePrice_eq_none_iff (l : List Fund) :
    findNonPositivePrice l = none ↔ ∀ f ∈ l, 0 < f.price := by
  induction l with
  | nil => simp [findNonPositivePrice]
  | cons f fs ih =>
    rw [findNonPositivePrice]
    by_cases h : f.price ≤ 0
    · rw [if_pos h]
      simp only [List.mem_cons]
      constructor
      · intro hc
        exact absurd hc (by simp)
      · intro hall
        exact absurd (hall f (Or.inl rfl)) (not_lt.mpr h)
    · rw [if_neg h]
      simp only [List.mem_cons, ih]
      constructor
      · rintro hall g (rfl | hg)
        · exact lt_of_not_le h
        · exact hall g hg
      · intro hall g hg
        exact hall g (Or.inr hg)

/-- Whatever the price loop finds is a member with non-positive price. -/
lemma findNonPositivePrice_eq_some (l : List Fund) (f : Fund)
    (h : findNonPositivePrice l = some f) : f ∈ l ∧ f.price ≤ 0 := by
  induction l with
  | nil => simp [findNonPositivePrice] at h
  | cons g gs ih =>
    rw [findNonPositivePrice] at h
    by_cases hg : g.price ≤ 0
    · rw [if_pos hg] at h
      cases h
      exact ⟨List.mem_cons_self _ _, hg⟩
    · rw [if_neg hg] at h
      obtain ⟨hm, hp⟩ := ih h
      exact ⟨List.mem_cons_of_mem _ hm, hp⟩

/-- `Config::validate` succeeds exactly when the proportion sum is within the
tolerance and every price is positive; no other check is performed. -/
lemma validate_eq_ok_iff (c : Config) :
    c.validate = .ok () ↔
      |fund_proportion_sum c - 1| ≤ 1/100 ∧ ∀ f ∈ c.funds, 0 < f.price := by
  rw [Config.validate]
  by_cases hs : 1/100 < |fund_proportion_sum c - 1|
  · rw [if_pos hs]
    constructor
    · intro h
      exact absurd h (by simp)
    · rintro ⟨h1, -⟩
      exact absurd hs (not_lt.mpr h1)
  · rw [if_neg hs]
    rw [not_lt] at hs
    cases hfind : findNonPositivePrice c.funds with
    | none =>
      simp only [hfind]
      constructor
      · intro _
        exact ⟨hs, (findNonPositivePrice_eq_none_iff c.funds).mp hfind⟩
      · intro _
        trivial
    | some f =>
      simp only [hfind]
      obtain ⟨hm, hp⟩ := findNonPositivePrice_eq_some c.funds f hfind
      constructor
      · intro h
        exact absurd h (by simp)
      · rintro ⟨-, hall⟩
        exact absurd (hall f hm) (not_lt.mpr hp)

/-- When the sum is within tolerance, validation reports the first fund the
price loop finds with a non-positive price. -/
lemma validate_price_error (c : Config) (f : Fund)
    (hs : |fund_proportion_sum c - 1| ≤ 1/100)
    (hfind : findNonPositivePrice c.funds = some f) :
    c.validate = .error (.nonPositivePrice f.symbol) := by
  rw [Config.validate, if_neg (not_lt.mpr hs), hfind]

/-- When the sum is outside tolerance, validation reports it, whatever the
prices are. -/
lemma validate_sum_error (c : Config) (hs : 1/100 < |fund_proportion_sum c - 1|) :
    c.validate = .error (.proportionSum (fund_proportion_sum c)) := by
  rw [Config.validate, if_pos hs]

/- Concrete evaluations used to instantiate the validation claims. -/

lemma propSum_cfg1005 : fund_proportion_sum cfg1005 = 201/200 := by
  norm_num [fund_proportion_sum, cfg1005]

lemma propSum_cfg102 : fund_proportion_sum cfg102 = 51/50 := by
  norm_num [fund_proportion_sum, cfg102]

lemma propSum_cfg5040 : fund_proportion_sum cfg5040 = 9/10 := by
  norm_num [fund_proportion_sum, cfg5040]

lemma hsum_cfg1005 : |fund_proportion_sum cfg1005 - 1| ≤ 1/100 := by
  rw [propSum_cfg1005, abs_le]
  norm_num

lemma hprices_cfg1005 : ∀ f ∈ cfg1005.funds, 0 < f.price := by
  norm_num [cfg1005]

lemma hsum_cfg102 : 1/100 < |fund_proportion_sum cfg102 - 1| := by
  rw [propSum_cfg102, lt_abs]
  norm_num

lemma hsum_cfg5040 : 1/100 < |fund_proportion_sum cfg5040 - 1| := by
  rw [propSum_cfg5040, lt_abs]
  norm_num

lemma hsum_cfgZeroPrice : |fund_proportion_sum cfgZeroPrice - 1| ≤ 1/100 := by
  norm_num [fund_proportion_sum, cfgZeroPrice, fundZero]

lemma hfind_cfgZeroPrice : findNonPositivePrice cfgZeroPrice.funds = some fundZero := by
  simp [findNonPositivePrice, cfgZeroPrice, fundZero]

lemma hsum_cfgDup : |fund_proportion_sum cfgDup - 1| ≤ 1/100 := by
  norm_num [fund_proportion_sum, cfgDup, dupFund1, dupFund2]

lemma hprices_cfgDup : ∀ f ∈ cfgDup.funds, 0 < f.price := by
  norm_num [cfgDup, dupFund1, dupFund2]

/-- C5: validation accepts any configuration whose target proportions sum to
within absolute tolerance 0.01 of 1.0 (its funds passing the later price
check), and fails any configuration outside that tolerance with an error
reporting the actual sum. -/
theorem c5_validation_tolerance (c : Config) :
    (|fund_proportion_sum c - 1| ≤ 1/100 → (∀ f ∈ c.funds, 0 < f.price) →
      c.validate = .ok ()) ∧
    (1/100 < |fund_proportion_sum c - 1| →
      c.validate = .error (.proportionSum (fund_proportion_sum c))) := by
  constructor
  · intro h1 h2
    exact (validate_eq_ok_iff c).mpr ⟨h1, h2⟩
  · exact validate_sum_error c

/-- C5 witness: a sum of 1.005 passes; sums 1.02 and 0.90 fail, each reported
exactly. -/
theorem c5_validation_tolerance_witness :
    cfg1005.validate = .ok () ∧
    cfg102.validate = .error (.proportionSum (51/50)) ∧
    cfg5040.validate = .error (.proportionSum (9/10)) := by
  refine ⟨(c5_validation_tolerance cfg1005).1 hsum_cfg1005 hprices_cfg1005, ?_, ?_⟩
  · have h := (c5_validation_tolerance cfg102).2 hsum_cfg102
    rwa [propSum_cfg102] at h
  · have h := (c5_validation_tolerance cfg5040).2 hsum_cfg5040
    rwa [propSum_cfg5040] at h

/-- C6: whenever the proportion sum is within tolerance and some fund's price
is not strictly positive, validation fails naming the offending fund's symbol
(the first one the loop reaches); a non-positive price always prevents
success; and a configuration that also violates the proportion-sum invariant
reports the proportion-sum error, because that check runs first. -/
theorem c6_price_check (c : Config) :
    (∀ f0 : Fund, |fund_proportion_sum c - 1| ≤ 1/100 →
      findNonPositivePrice c.funds = some f0 →
      f0 ∈ c.funds ∧ f0.price ≤ 0 ∧
        c.validate = .error (.nonPositivePrice f0.symbol)) ∧
    ((∃ f ∈ c.funds, f.price ≤ 0) → c.validate ≠ .ok ()) ∧
    (1/100 < |fund_proportion_sum c - 1| →
      c.validate = .error (.proportionSum (fund_proportion_sum c))) := by
  refine ⟨?_, ?_, validate_sum_error c⟩
  · intro f0 hs hfind
    obtain ⟨hm, hp⟩ := findNonPositivePrice_eq_some c.funds f0 hfind
    exact ⟨hm, hp, validate_price_error c f0 hs hfind⟩
  · rintro ⟨f, hm, hp⟩ hok
    obtain ⟨-, hall⟩ := (validate_eq_ok_iff c).mp hok
    exact absurd (hall f hm) (not_lt.mpr hp)

/-- C6 witness: the zero-priced fund is reported by symbol. -/
theorem c6_price_check_witness :
    fundZero ∈ cfgZeroPrice.funds ∧ fundZero.price ≤ 0 ∧
      cfgZeroPrice.validate = .error (.nonPositivePrice fundZero.symbol) :=
  (c6_price_check cfgZeroPrice).1 fundZero hsum_cfgZeroPrice hfind_cfgZeroPrice

/-- C9 counterexample: a configuration with two funds sharing the symbol
`AAA` nevertheless passes validation, so the claim that duplicate symbols are
rejected at validation time is false. -/
theorem c9_counterexample :
    cfgDup.funds.map (fun f => f.symbol) = [aaa, aaa] ∧
      cfgDup.validate = .ok () := by
  constructor
  · rfl
  · exact (validate_eq_ok_iff cfgDup).mpr ⟨hsum_cfgDup, hprices_cfgDup⟩

/-- C9 amended: validation succeeds exactly when the proportion sum is within
tolerance and every price is positive — it performs no duplicate-symbol
check — and in the model two funds with the same symbol share one decision
variable, so their extracted share counts always coincide. -/
theorem c9_no_duplicate_check (c : Config) :
    (c.validate = .ok () ↔
      |fund_proportion_sum c - 1| ≤ 1/100 ∧ ∀ f ∈ c.funds, 0 < f.price) ∧
    (∀ σ : String → ℤ, ∀ f g : Fund, f.symbol = g.symbol →
      optimal_shares σ f = optimal_shares σ g) := by
  refine ⟨validate_eq_ok_iff c, ?_⟩
  intro σ f g h
  rw [optimal_shares, optimal_shares, h]

/-- C9 amended witness: the duplicate-symbol configuration passes validation
and its two same-symbol funds are assigned identical share counts. -/
theorem c9_no_duplicate_check_witness :
    cfgDup.validate = .ok () ∧
      optimal_shares nineShares dupFund1 = optimal_shares nineShares dupFund2 :=
  ⟨(c9_no_duplicate_check cfgDup).1.mpr ⟨hsum_cfgDup, hprices_cfgDup⟩,
   (c9_no_duplicate_check cfgDup).2 nineShares dupFund1 dupFund2 rfl⟩

/-- C10: a configuration with no funds has proportion sum 0, which differs
from 1 by more than the tolerance, so validation always rejects it with the
sum error before any modeling. -/
theorem c10_empty_config_rejected (c : Config) (h : c.funds = []) :
    c.validate = .error (.proportionSum 0) := by
  have hs : fund_proportion_sum c = 0 := by
    rw [fund_proportion_sum, h]
    rfl
  have hv := validate_sum_error c (by rw [hs]; norm_num)
  rwa [hs] at hv

/-- C10 witness: the empty configuration is rejected reporting sum 0. -/
theorem c10_empty_config_rejected_witness :
    cfgEmpty.validate = .error (.proportionSum 0) :=
  c10_empty_config_rejected cfgEmpty rfl

/-- C3 counterexample: at the concrete price 19.4567 the implemented
quantization yields 19.457 — the result of rounding to the nearest
thousandth — while truncation to 3 decimals yields 19.456; the two disagree,
so inputs are not quantized by truncation. -/
theorem c3_counterexample :
    f64_to_real (194567/10000) = 19457/1000 ∧
    truncate3 (194567/10000) = 19456/1000 ∧
    f64_to_real (194567/10000) ≠ truncate3 (194567/10000) := by
  refine ⟨f64_194567, truncate3_194567, ?_⟩
  rw [f64_194567, truncate3_194567]
  norm_num

/-- C3 amended: every real input is quantized by converting it to 3 decimal
digits by rounding to the nearest thousandth (the rounding of Rust fixed
precision formatting, ties to even) — not truncation — before exact rational
parsing; multiples of 1/1000 are fixed, and a price of 19.4567 produces the
same rational coefficient as a price of 19.457. -/
theorem c3_quantization_rounds_to_nearest :
    (∀ x : ℚ, |x - f64_to_real x| ≤ 1/2000) ∧
    (∀ n : ℤ, f64_to_real ((n : ℚ)/1000) = (n : ℚ)/1000) ∧
    f64_to_real (194567/10000) = f64_to_real (19457/1000) := by
  refine ⟨abs_sub_f64_to_real_le, f64_to_real_thousandth, ?_⟩
  have h := f64_to_real_thousandth 19457
  push_cast at h
  rw [f64_194567, h]

/-- C1: for every validated configuration, target budget and assignment, the
objective `construct_model` asks the backend to minimize — per-fund
conditional-expression deviations plus the underspend penalty weighted by the
quantized 1.0 — equals the sum of the absolute deviations
|price×(shares_to_buy + existing) − new_total × proportion| plus
(target_buy − total_bought) × 1, all coefficients quantized. -/
theorem c1_objective_eq_spec (c : Config) (tb : ℚ) (σ : String → ℤ)
    (_hval : c.validate = .ok ()) :
    objective c.funds tb σ = objectiveSpec c.funds tb σ := by
  rw [objective, objectiveSpec, f64_one]
  congr 1
  refine congrArg List.sum (List.map_congr_left ?_)
  intro f hf
  show deviation c.funds σ f = |delta_from_ideal c.funds σ f|
  rw [deviation]
  split
  · next h => exact (abs_of_neg h).symm
  · next h => exact (abs_of_nonneg (not_lt.mp h)).symm

lemma hval_cfg1005 : cfg1005.validate = .ok () :=
  (validate_eq_ok_iff cfg1005).mpr ⟨hsum_cfg1005, hprices_cfg1005⟩

/-- C1 witness: the two objective forms coincide on a concrete validated
configuration. -/
theorem c1_objective_eq_spec_witness :
    objective cfg1005.funds 100 nineShares
      = objectiveSpec cfg1005.funds 100 nineShares :=
  c1_objective_eq_spec cfg1005 100 nineShares hval_cfg1005

/- Evaluation of the single-fund degenerate scenario. -/

lemma total_bought_c4 (σ : String → ℤ) :
    total_bought c4funds σ = 10 * (σ vtsax : ℚ) := by
  simp [total_bought, c4funds, c4fund, f64_ten]
  ring

lemma total_existing_c4 : total_existing c4funds = 0 := by
  simp [total_existing, c4funds, c4fund, f64_zero]

lemma new_total_c4 (σ : String → ℤ) :
    new_total c4funds σ = 10 * (σ vtsax : ℚ) := by
  rw [new_total, total_bought_c4, total_existing_c4, add_zero]

lemma sat_c4_iff (σ : String → ℤ) :
    satisfies c4funds 100 σ ↔ 0 ≤ σ vtsax ∧ σ vtsax ≤ 9 := by
  rw [satisfies, total_bought_c4, f64_hundred]
  constructor
  · rintro ⟨hall, hlt⟩
    refine ⟨hall c4fund (by simp [c4funds]), ?_⟩
    have h' : (10 * σ vtsax : ℤ) < 100 := by exact_mod_cast hlt
    omega
  · rintro ⟨h0, h9⟩
    refine ⟨?_, ?_⟩
    · intro f hf
      have hfe : f = c4fund := by simpa [c4funds] using hf
      rw [hfe]
      exact h0
    · have h' : (10 * σ vtsax : ℤ) < 100 := by omega
      exact_mod_cast h'

lemma hsat_c4_nine : satisfies c4funds 100 nineShares :=
  (sat_c4_iff nineShares).mpr (by norm_num [nineShares])

/-- C2: a Solved Model is an assignment satisfying every asserted constraint,
and those constraints force the total bought — Σ shares × quantized price — to
be strictly below the quantized budget: never equal, never exceeding. -/
theorem c2_budget_strict (funds : List Fund) (tb : ℚ) (σ : String → ℤ)
    (h : satisfies funds tb σ) :
    total_bought funds σ < f64_to_real tb ∧
      total_bought funds σ ≠ f64_to_real tb :=
  ⟨h.2, ne_of_lt h.2⟩

/-- C2 witness: buying 9 shares at price 10 under budget 100 spends 90 < 100. -/
theorem c2_budget_strict_witness :
    total_bought c4funds nineShares < f64_to_real 100 ∧
      total_bought c4funds nineShares ≠ f64_to_real 100 :=
  c2_budget_strict c4funds 100 nineShares hsat_c4_nine

/-- C8: the model asserts every decision variable ≥ 0, so in any Solved Model
the extracted share count of every fund is a non-negative integer. -/
theorem c8_shares_nonneg (funds : List Fund) (tb : ℚ) (σ : String → ℤ)
    (h : satisfies funds tb σ) (f : Fund) (hf : f ∈ funds) :
    0 ≤ optimal_shares σ f :=
  h.1 f hf

/-- C8 witness: the degenerate scenario's solved assignment is non-negative. -/
theorem c8_shares_nonneg_witness : 0 ≤ optimal_shares nineShares c4fund :=
  c8_shares_nonneg c4funds 100 nineShares hsat_c4_nine c4fund (by simp [c4funds])

lemma delta_c4 (σ : String → ℤ) : delta_from_ideal c4funds σ c4fund = 0 := by
  rw [delta_from_ideal, new_total_c4]
  show f64_to_real 10 * ((σ vtsax : ℚ) + f64_to_real 0)
      - 10 * (σ vtsax : ℚ) * f64_to_real 1 = 0
  rw [f64_ten, f64_zero, f64_one]
  ring

lemma deviation_c4 (σ : String → ℤ) : deviation c4funds σ c4fund = 0 := by
  rw [deviation, delta_c4]
  norm_num

lemma objective_c4 (σ : String → ℤ) :
    objective c4funds 100 σ = 100 - 10 * (σ vtsax : ℚ) := by
  rw [objective, f64_hundred, f64_one, total_bought_c4]
  have hzero : (c4funds.map (fun f => deviation c4funds σ f)).sum = 0 := by
    show ([c4fund].map (fun f => deviation c4funds σ f)).sum = 0
    rw [List.map_cons, List.map_nil, List.sum_cons, List.sum_nil, deviation_c4]
    norm_num
  rw [hzero]
  ring

/-- C4: in the single-fund scenario (no existing shares, price 10, proportion
1, budget 100) the deviation term vanishes on every feasible assignment, the
assignment buying 9 shares is feasible, optimal, and uniquely so, and the
extracted results are 9 shares, a purchase amount of 90 and a new portfolio
total of 90. -/
theorem c4_single_fund_case :
    (∀ σ : String → ℤ, satisfies c4funds 100 σ → deviation c4funds σ c4fund = 0) ∧
    satisfies c4funds 100 nineShares ∧
    (∀ σ : String → ℤ, satisfies c4funds 100 σ →
      objective c4funds 100 nineShares ≤ objective c4funds 100 σ) ∧
    (∀ σ : String → ℤ, satisfies c4funds 100 σ →
      objective c4funds 100 σ = objective c4funds 100 nineShares →
      optimal_shares σ c4fund = 9) ∧
    optimal_shares nineShares c4fund = 9 ∧
    purchase_amount c4fund (optimal_shares nineShares c4fund) = 90 ∧
    new_portfolio_total c4funds nineShares = 90 := by
  have h9 : (nineShares vtsax : ℚ) = 9 := by norm_num [nineShares]
  refine ⟨fun σ _ => deviation_c4 σ, hsat_c4_nine, ?_, ?_, rfl, ?_, ?_⟩
  · intro σ hσ
    obtain ⟨-, hle⟩ := (sat_c4_iff σ).mp hσ
    rw [objective_c4, objective_c4, h9]
    have hc : (σ vtsax : ℚ) ≤ 9 := by exact_mod_cast hle
    linarith
  · intro σ hσ heq
    rw [objective_c4, objective_c4, h9] at heq
    have hc : (σ vtsax : ℚ) = 9 := by linarith
    exact_mod_cast hc
  · rw [purchase_amount]
    norm_num [optimal_shares, nineShares, c4fund]
  · rw [new_portfolio_total, new_total_c4]
    norm_num [nineShares]

/-- C4 witness: the conditional parts of the degenerate-case theorem applied
to the concrete optimal assignment. -/
theorem c4_single_fund_case_witness :
    deviation c4funds nineShares c4fund = 0 ∧
      objective c4funds 100 nineShares ≤ objective c4funds 100 nineShares :=
  ⟨c4_single_fund_case.1 nineShares hsat_c4_nine,
   c4_single_fund_case.2.2.1 nineShares hsat_c4_nine⟩

/- Sign facts about the quantization, needed for the infeasibility claim. -/

lemma roundHalfEven_nonneg (y : ℚ) (h : 0 ≤ y) : 0 ≤ roundHalfEven y := by
  have h0 : 0 ≤ ⌊y⌋ := Int.floor_nonneg.mpr h
  rw [roundHalfEven]
  split
  · exact h0
  · split
    · omega
    · split
      · exact h0
      · omega

lemma roundHalfEven_nonpos (y : ℚ) (h : y ≤ 0) : roundHalfEven y ≤ 0 := by
  have h1 : (⌊y⌋ : ℚ) ≤ y := Int.floor_le y
  have h0 : ⌊y⌋ ≤ 0 := by exact_mod_cast le_trans h1 h
  rw [roundHalfEven]
  split
  · exact h0
  · next hlt =>
    have hle : (1 : ℚ)/2 ≤ y - ⌊y⌋ := not_lt.mp hlt
    have hneg : ⌊y⌋ < 0 := by
      have hc : (⌊y⌋ : ℚ) < 0 := by linarith
      exact_mod_cast hc
    split
    · omega
    · split
      · exact h0
      · omega

lemma f64_to_real_nonneg (x : ℚ) (h : 0 ≤ x) : 0 ≤ f64_to_real x := by
  rw [f64_to_real]
  have hr : 0 ≤ roundHalfEven (x * 1000) :=
    roundHalfEven_nonneg _ (by linarith)
  exact div_nonneg (by exact_mod_cast hr) (by norm_num)

lemma f64_to_real_nonpos (x : ℚ) (h : x ≤ 0) : f64_to_real x ≤ 0 := by
  rw [f64_to_real]
  have hr : roundHalfEven (x * 1000) ≤ 0 :=
    roundHalfEven_nonpos _ (by linarith)
  exact div_nonpos_iff.mpr (Or.inr ⟨by exact_mod_cast hr, by norm_num⟩)

/-- With non-negative decision variables and positive prices, the model's
total bought is non-negative. -/
lemma total_bought_nonneg (funds : List Fund) (σ : String → ℤ)
    (hσ : ∀ f ∈ funds, 0 ≤ σ f.symbol) (hp : ∀ f ∈ funds, 0 < f.price) :
    0 ≤ total_bought funds σ := by
  rw [total_bought]
  apply List.sum_nonneg
  intro x hx
  simp only [List.mem_map] at hx
  obtain ⟨f, hf, rfl⟩ := hx
  apply mul_nonneg
  · exact_mod_cast hσ f hf
  · exact f64_to_real_nonneg _ (le_of_lt (hp f hf))

set_option maxHeartbeats 1000000 in
/-- C7: for a validated configuration with positive prices and a non-positive
budget, the asserted constraints are unsatisfiable — the non-negative total
bought can never lie strictly below the non-positive quantized budget — so
every backend sound for the asserted constraints returns no Solved Model and
the pipeline surfaces the no-solution error instead of a report. -/
theorem c7_infeasible_nonpositive_budget (c : Config) (tb : ℚ)
    (hval : c.validate = .ok ()) (htb : tb ≤ 0)
    (hp : ∀ f ∈ c.funds, 0 < f.price) :
    (∀ σ : String → ℤ, ¬ satisfies c.funds tb σ) ∧
    (∀ solve : List Fund → ℚ → Option (String → ℤ),
      (∀ fs t σ, solve fs t = some σ → satisfies fs t σ) →
      runPipeline solve c tb = .error .noSolution) := by
  have hunsat : ∀ σ : String → ℤ, ¬ satisfies c.funds tb σ := by
    rintro σ ⟨hσ, hlt⟩
    have h0 : 0 ≤ total_bought c.funds σ := total_bought_nonneg c.funds σ hσ hp
    have h1 : f64_to_real tb ≤ 0 := f64_to_real_nonpos tb htb
    linarith
  refine ⟨hunsat, ?_⟩
  intro solve hsound
  have hnone : solve c.funds tb = none := by
    cases hs : solve c.funds tb with
    | none => rfl
    | some σ => exact absurd (hsound _ _ _ hs) (hunsat σ)
  simp only [runPipeline, hval, hnone]

lemma hsum_c7cfg : |fund_proportion_sum c7cfg - 1| ≤ 1/100 := by
  norm_num [fund_proportion_sum, c7cfg]

lemma hprices_c7cfg : ∀ f ∈ c7cfg.funds, 0 < f.price := by
  norm_num [c7cfg]

lemma hval_c7cfg : c7cfg.validate = .ok () :=
  (validate_eq_ok_iff c7cfg).mpr ⟨hsum_c7cfg, hprices_c7cfg⟩

/-- C7 witness: with budget −5 and one positively priced fund, no assignment
satisfies the constraints and the pipeline reports no solution. -/
theorem c7_infeasible_nonpositive_budget_witness :
    ¬ satisfies c7cfg.funds (-5) nineShares ∧
      runPipeline solveNone c7cfg (-5) = .error .noSolution :=
  ⟨(c7_infeasible_nonpositive_budget c7cfg (-5) hval_c7cfg (by norm_num)
      hprices_c7cfg).1 nineShares,
   (c7_infeasible_nonpositive_budget c7cfg (-5) hval_c7cfg (by norm_num)
      hprices_c7cfg).2 solveNone (fun _ _ _ h => Option.noConfusion h)⟩
